import Mathlib

/-!
Verification of the provider abstraction layer of the Altair AI service
(`services/ai-service/app`): the provider factory, the JSON response
extractor shared by the adapters, the retry wrapper around the network
exchange, and the per-operation response mapping, embedded shallowly
from the Python source. Strings manipulated by the extractor are
modelled as `List Char`; Python exceptions are modelled as a class tag
plus a payload string.
-/

namespace Altair

/-- Whitespace stripped by Python's `str.strip()` (the ASCII subset;
the extractor only ever strips around JSON text). -/
def pyWS (c : Char) : Bool :=
  c = ' ' || c = '\t' || c = '\n' || c = '\r' || c = '\x0b' || c = '\x0c'

/-- Whitespace accepted between tokens by Python's `json.loads`. -/
def jsonWS (c : Char) : Bool :=
  c = ' ' || c = '\t' || c = '\n' || c = '\r'

/-- Drop leading Python whitespace (`str.lstrip`). -/
def dropLeadWS (l : List Char) : List Char := l.dropWhile pyWS

/-- Drop trailing Python whitespace (`str.rstrip`). -/
def dropTrailWS (l : List Char) : List Char := (l.reverse.dropWhile pyWS).reverse

/-- Python `str.strip()` on char lists. -/
def trimL (l : List Char) : List Char := dropTrailWS (dropLeadWS l)

/-- Python `str.startswith` on char lists. -/
def leadMatch : List Char → List Char → Bool
  | [], _ => true
  | _ :: _, [] => false
  | p :: ps, c :: cs => p = c && leadMatch ps cs

/-- Python `str.endswith` on char lists. -/
def endMatch (pat l : List Char) : Bool := leadMatch pat.reverse l.reverse

/-- Python slice `s[:-n]`: drop the last `n` characters. -/
def dropRightL (l : List Char) (n : Nat) : List Char := (l.reverse.drop n).reverse

/-- Substring occurrence test (`needle in hay` in Python). -/
def mentionsL (hay needle : List Char) : Bool :=
  hay.tails.any (fun t => leadMatch needle t)

/-- The Python exception classes raised along the ai-service code paths:
`ValueError` (factory errors, empty responses, JSON and enum failures),
`KeyError` (missing dictionary keys), `TypeError` (subscripting a
non-dict), pydantic's `ValidationError`, tenacity's `RetryError`, and
the API client exception classes grouped as `apiError`. -/
inductive PyExcType
  | valueError
  | keyError
  | typeError
  | validationError
  | retryError
  | apiError
  deriving DecidableEq, Repr

/-- A raised Python exception: its class together with its payload
(the message, or for `KeyError` the missing key). -/
structure PyErr where
  ty : PyExcType
  payload : String
  deriving DecidableEq, Repr

/-- The exception class of a failed computation, if it failed. -/
def errTy {α : Type _} : Except PyErr α → Option PyExcType
  | .error e => some e.ty
  | .ok _ => none

/-- A JSON number as a scaled decimal: the value is
`mant / 10 ^ scale`. `json.loads` yields a Python int when the literal
has no fraction or exponent and a float otherwise; pydantic's lax int
conversion accepts a float with integral value, which here is
divisibility of `mant` by `10 ^ scale`. -/
structure JNum where
  mant : Int
  scale : Nat
  deriving DecidableEq, Repr

/-- A parsed JSON document as produced by `json.loads`. Objects keep
their key/value pairs in order; like a Python dict built by the parser,
a later duplicate key shadows an earlier one (see `jsonLookup`). -/
inductive Json
  | null
  | bool (b : Bool)
  | num (n : JNum)
  | str (s : String)
  | arr (elems : List Json)
  | obj (fields : List (String × Json))

/-- Hexadecimal digit value, for string escapes. -/
def hexVal (c : Char) : Option Nat :=
  if '0' ≤ c ∧ c ≤ '9' then some (c.toNat - '0'.toNat)
  else if 'a' ≤ c ∧ c ≤ 'f' then some (c.toNat - 'a'.toNat + 10)
  else if 'A' ≤ c ∧ c ≤ 'F' then some (c.toNat - 'A'.toNat + 10)
  else none

/-- Decimal digit test. -/
def isDigitC (c : Char) : Bool := '0' ≤ c && c ≤ '9'

/-- Value of a digit run. -/
def digitsToNat (ds : List Char) : Nat :=
  ds.foldl (fun acc c => 10 * acc + (c.toNat - '0'.toNat)) 0

/-- Scan a JSON string body after the opening quote: returns the decoded
characters and the input after the closing quote. -/
def scanString : Nat → List Char → List Char → Except String (List Char × List Char)
  | 0, _, _ => .error "string scan fuel exhausted"
  | _ + 1, _, [] => .error "Unterminated string"
  | _ + 1, acc, '"' :: rest => .ok (acc.reverse, rest)
  | fuel + 1, acc, '\\' :: rest =>
    match rest with
    | '"' :: r => scanString fuel ('"' :: acc) r
    | '\\' :: r => scanString fuel ('\\' :: acc) r
    | '/' :: r => scanString fuel ('/' :: acc) r
    | 'b' :: r => scanString fuel ('\x08' :: acc) r
    | 'f' :: r => scanString fuel ('\x0c' :: acc) r
    | 'n' :: r => scanString fuel ('\n' :: acc) r
    | 'r' :: r => scanString fuel ('\r' :: acc) r
    | 't' :: r => scanString fuel ('\t' :: acc) r
    | 'u' :: a :: b :: c :: d :: r =>
      match hexVal a, hexVal b, hexVal c, hexVal d with
      | some x, some y, some z, some w =>
        scanString fuel (Char.ofNat (((x * 16 + y) * 16 + z) * 16 + w) :: acc) r
      | _, _, _, _ => .error "Invalid unicode escape"
    | _ => .error "Invalid escape"
  | fuel + 1, acc, c :: rest => scanString fuel (c :: acc) rest

/-- Scan an optional exponent part; returns the exponent (0 if absent)
and the remaining input. -/
def scanExp (l : List Char) : Except String (Int × List Char) :=
  match l with
  | 'e' :: r => scanExpSigned r
  | 'E' :: r => scanExpSigned r
  | _ => .ok (0, l)
where
  scanExpSigned (r : List Char) : Except String (Int × List Char) :=
    let (neg, r1) : Bool × List Char :=
      match r with
      | '-' :: r' => (true, r')
      | '+' :: r' => (false, r')
      | _ => (false, r)
    let ds := r1.takeWhile isDigitC
    if ds.isEmpty then .error "Invalid number"
    else
      let e : Int := (digitsToNat ds : Int)
      .ok (if neg then -e else e, r1.dropWhile isDigitC)

/-- Scan a JSON number literal into a scaled decimal. -/
def scanNumber (l : List Char) : Except String (JNum × List Char) :=
  let (neg, l1) : Bool × List Char :=
    match l with
    | '-' :: r => (true, r)
    | _ => (false, l)
  let ds := l1.takeWhile isDigitC
  let l2 := l1.dropWhile isDigitC
  if ds.isEmpty then .error "Expecting value"
  else
    match l2 with
    | '.' :: r =>
      let fds := r.takeWhile isDigitC
      if fds.isEmpty then .error "Invalid number"
      else finish neg ds fds (r.dropWhile isDigitC)
    | _ => finish neg ds [] l2
where
  finish (neg : Bool) (ds fds : List Char) (rest : List Char) :
      Except String (JNum × List Char) :=
    match scanExp rest with
    | .error e => .error e
    | .ok (e, rest') =>
      let mant0 : Int := (digitsToNat (ds ++ fds) : Int)
      let mant1 : Int := if neg then -mant0 else mant0
      let n : JNum :=
        if 0 ≤ e then ⟨mant1 * (10 : Int) ^ e.toNat, fds.length⟩
        else ⟨mant1, fds.length + (-e).toNat⟩
      .ok (n, rest')

mutual

/-- Recursive-descent JSON value parser (the grammar accepted by
`json.loads`), fuelled for termination. -/
def parseVal : Nat → List Char → Except String (Json × List Char)
  | 0, _ => .error "parse fuel exhausted"
  | fuel + 1, l =>
    match l.dropWhile jsonWS with
    | [] => .error "Expecting value"
    | '{' :: rest => parseObjFirst fuel rest
    | '[' :: rest => parseArrFirst fuel rest
    | '"' :: rest =>
      match scanString (rest.length + 1) [] rest with
      | .error e => .error e
      | .ok (cs, r) => .ok (.str (String.mk cs), r)
    | 't' :: rest =>
      if leadMatch ['r', 'u', 'e'] rest then .ok (.bool true, rest.drop 3)
      else .error "Expecting value"
    | 'f' :: rest =>
      if leadMatch ['a', 'l', 's', 'e'] rest then .ok (.bool false, rest.drop 4)
      else .error "Expecting value"
    | 'n' :: rest =>
      if leadMatch ['u', 'l', 'l'] rest then .ok (.null, rest.drop 3)
      else .error "Expecting value"
    | l' =>
      match scanNumber l' with
      | .error e => .error e
      | .ok (n, r) => .ok (.num n, r)

/-- Array elements after the opening bracket. -/
def parseArrFirst : Nat → List Char → Except String (Json × List Char)
  | 0, _ => .error "parse fuel exhausted"
  | fuel + 1, l =>
    match l.dropWhile jsonWS with
    | ']' :: rest => .ok (.arr [], rest)
    | l' =>
      match parseVal fuel l' with
      | .error e => .error e
      | .ok (v, r) => parseArrRest fuel [v] r

/-- Array continuation after at least one element. -/
def parseArrRest : Nat → List Json → List Char → Except String (Json × List Char)
  | 0, _, _ => .error "parse fuel exhausted"
  | fuel + 1, acc, l =>
    match l.dropWhile jsonWS with
    | ',' :: rest =>
      match parseVal fuel rest with
      | .error e => .error e
      | .ok (v, r) => parseArrRest fuel (v :: acc) r
    | ']' :: rest => .ok (.arr acc.reverse, rest)
    | _ => .error "Expecting delimiter"

/-- Object members after the opening brace. -/
def parseObjFirst : Nat → List Char → Except String (Json × List Char)
  | 0, _ => .error "parse fuel exhausted"
  | fuel + 1, l =>
    match l.dropWhile jsonWS with
    | '}' :: rest => .ok (.obj [], rest)
    | '"' :: rest =>
      match scanString (rest.length + 1) [] rest with
      | .error e => .error e
      | .ok (k, r) => parseObjValue fuel [] (String.mk k) r
    | _ => .error "Expecting property name"

/-- The colon and value of one object member. -/
def parseObjValue : Nat → List (String × Json) → String → List Char →
    Except String (Json × List Char)
  | 0, _, _, _ => .error "parse fuel exhausted"
  | fuel + 1, acc, key, l =>
    match l.dropWhile jsonWS with
    | ':' :: rest =>
      match parseVal fuel rest with
      | .error e => .error e
      | .ok (v, r) => parseObjRest fuel ((key, v) :: acc) r
    | _ => .error "Expecting colon delimiter"

/-- Object continuation after at least one member. -/
def parseObjRest : Nat → List (String × Json) → List Char →
    Except String (Json × List Char)
  | 0, _, _ => .error "parse fuel exhausted"
  | fuel + 1, acc, l =>
    match l.dropWhile jsonWS with
    | ',' :: rest =>
      match rest.dropWhile jsonWS with
      | '"' :: r2 =>
        match scanString (r2.length + 1) [] r2 with
        | .error e => .error e
        | .ok (k, r) => parseObjValue fuel acc (String.mk k) r
      | _ => .error "Expecting property name"
    | '}' :: rest => .ok (.obj acc.reverse, rest)
    | _ => .error "Expecting delimiter"

end

/-- `json.loads`: parse a complete document; trailing non-whitespace is
an error. -/
def jsonLoads (l : List Char) : Except String Json :=
  match parseVal (2 * l.length + 4) l with
  | .error e => .error e
  | .ok (v, rest) =>
    if (rest.dropWhile jsonWS).isEmpty then .ok v else .error "Extra data"

/-- The leading markdown fence with language tag checked by the
extractor. -/
def fenceJson : List Char := ['`', '`', '`', 'j', 's', 'o', 'n']

/-- A bare markdown fence. -/
def fence : List Char := ['`', '`', '`']

/-- The fence-stripping normalization of
`OpenAIService._parse_json_response` (lines 87-93 of
openai_service.py; AnthropicService lines 96-102 are identical):
strip whitespace, drop a leading seven-character fence with tag, then a
leading bare fence, then a trailing bare fence. -/
def stripFences (response : List Char) : List Char :=
  let r0 := trimL response
  let r1 := if leadMatch fenceJson r0 then r0.drop 7 else r0
  let r2 := if leadMatch fence r1 then r1.drop 3 else r1
  if endMatch fence r2 then dropRightL r2 3 else r2

/-- Wrap a decode failure the way `_parse_json_response` re-raises
`json.JSONDecodeError` as `ValueError`. -/
def extractJson (l : List Char) : Except PyErr Json :=
  match jsonLoads l with
  | .ok j => .ok j
  | .error e => .error ⟨.valueError, "Invalid JSON response from AI: " ++ e⟩

/-- `OpenAIService._parse_json_response` (openai_service.py lines
74-100) and the identical `AnthropicService._parse_json_response`:
fence normalization, a final strip, then `json.loads`, with decode
errors re-raised as `ValueError`. -/
def parseJsonResponse (response : List Char) : Except PyErr Json :=
  extractJson (trimL (stripFences response))

/-- Lookup in the ordered field list of a parsed object; as in a Python
dict built by `json.loads`, a later duplicate key shadows an earlier
one. -/
def jsonLookup (fields : List (String × Json)) (key : String) : Option Json :=
  fields.foldl (fun acc kv => if kv.1 = key then some kv.2 else acc) none

/-- Python subscript `data[key]` on a parsed JSON value: only an object
is a dict; a missing key raises `KeyError` (whose payload is the key),
and subscripting any non-dict value raises `TypeError`. -/
def jsonDictGet : Json → String → Except PyErr Json
  | .obj fields, key =>
    match jsonLookup fields key with
    | some v => .ok v
    | none => .error ⟨.keyError, key⟩
  | _, key => .error ⟨.typeError, "value not subscriptable by " ++ key⟩

/-- Python `data.get(key)` (default `None`) on a parsed JSON value. -/
def jsonDictOptGet : Json → String → Except PyErr (Option Json)
  | .obj fields, key => .ok (jsonLookup fields key)
  | _, _ => .error ⟨.typeError, "get on a non-dict value"⟩

/-- pydantic `str` field validation. -/
def pyStr : Json → Except PyErr String
  | .str s => .ok s
  | _ => .error ⟨.validationError, "Input should be a valid string"⟩

/-- pydantic `str | None` field validation (default `None`). Numeric
strings are not coerced for the fields modelled here. -/
def pyOptStr : Option Json → Except PyErr (Option String)
  | none => .ok none
  | some .null => .ok none
  | some (.str s) => .ok (some s)
  | some _ => .error ⟨.validationError, "Input should be a valid string"⟩

/-- pydantic `int` field validation from a JSON value: an int, or a
float with integral value (lax conversion). Lax coercion of numeric
strings is not modelled (no claim depends on it). -/
def pyInt : Json → Except PyErr Int
  | .num n =>
    if n.mant % (10 : Int) ^ n.scale = 0 then .ok (n.mant / (10 : Int) ^ n.scale)
    else .error ⟨.validationError, "Input should be a valid integer"⟩
  | _ => .error ⟨.validationError, "Input should be a valid integer"⟩

/-- pydantic `float` field validation: accepts a JSON int or float. -/
def pyFloat : Json → Except PyErr JNum
  | .num n => .ok n
  | _ => .error ⟨.validationError, "Input should be a valid number"⟩

/-- The `ge=0.0, le=1.0` bound on a scaled-decimal number. -/
def unitRange (n : JNum) : Bool :=
  0 ≤ n.mant && n.mant ≤ (10 : Int) ^ n.scale

/-- A score field: `float` with `ge=0.0, le=1.0`. -/
def pyUnitFloat (j : Json) : Except PyErr JNum := do
  let n ← pyFloat j
  if unitRange n then .ok n
  else .error ⟨.validationError, "Input should be within the unit interval"⟩

/-- pydantic `list[str]` field validation. -/
def pyStrList : Json → Except PyErr (List String)
  | .arr xs => xs.mapM pyStr
  | _ => .error ⟨.validationError, "Input should be a valid list"⟩

/-- models/responses.py `PriorityLevel`: the four-member str enum. -/
inductive PriorityLevel
  | critical
  | high
  | medium
  | low
  deriving DecidableEq, Repr

/-- The Python enum constructor `PriorityLevel(value)`: returns the
member whose value matches, and raises `ValueError` for any other
value (including non-strings). -/
def priorityLevelOf : Json → Except PyErr PriorityLevel
  | .str "critical" => .ok .critical
  | .str "high" => .ok .high
  | .str "medium" => .ok .medium
  | .str "low" => .ok .low
  | _ => .error ⟨.valueError, "is not a valid PriorityLevel"⟩

/-- models/requests.py `TaskBreakdownRequest` (validated fields; the
provider/api_key overrides are passed to the factory separately). -/
structure TaskBreakdownRequest where
  task_title : String
  task_description : Option String
  context : Option String
  max_subtasks : Int
  deriving DecidableEq, Repr

/-- models/responses.py `SubtaskSuggestion`. -/
structure SubtaskSuggestion where
  title : String
  description : Option String
  estimated_minutes : Option Int
  order : Int
  deriving DecidableEq, Repr

/-- models/responses.py `TaskBreakdownResponse`. -/
structure TaskBreakdownResponse where
  original_task : String
  subtasks : List SubtaskSuggestion
  total_estimated_minutes : Option Int
  reasoning : Option String
  deriving DecidableEq, Repr

/-- models/responses.py `PrioritySuggestion` (task_id is never set by
the adapters and is omitted). -/
structure PrioritySuggestion where
  task_title : String
  priority : PriorityLevel
  reasoning : String
  urgency_score : JNum
  impact_score : JNum
  deriving DecidableEq, Repr

/-- models/responses.py `TaskPrioritizationResponse`. -/
structure TaskPrioritizationResponse where
  suggestions : List PrioritySuggestion
  recommended_order : List String
  deriving DecidableEq, Repr

/-- models/responses.py `TimeEstimate`. -/
structure TimeEstimate where
  optimistic_minutes : Int
  realistic_minutes : Int
  pessimistic_minutes : Int
  confidence : JNum
  deriving DecidableEq, Repr

/-- models/responses.py `TimeEstimateResponse`. -/
structure TimeEstimateResponse where
  task_title : String
  estimate : TimeEstimate
  factors : List String
  assumptions : List String
  deriving DecidableEq, Repr

/-- Python iteration `for ... in v` over a parsed value that the
adapters expect to be a JSON array: any non-list value raises
`TypeError` when the entries are subscripted. -/
def asEntries (what : String) : Json → Except PyErr (List Json)
  | .arr es => .ok es
  | _ => .error ⟨.typeError, what ++ " entries are not a list"⟩

/-- A plain list comprehension over entries, propagating the first
failure. -/
def mapE {α : Type _} (f : Json → Except PyErr α) :
    List Json → Except PyErr (List α)
  | [] => .ok []
  | e :: es => do
    let a ← f e
    let rest ← mapE f es
    .ok (a :: rest)

/-- One entry of the breakdown list (openai_service.py lines 136-144,
anthropic_service.py lines 137-145, identical): the keyword arguments
`st["title"]`, `st.get("description")`, `st.get("estimated_minutes")`,
`st.get("order", idx + 1)` are evaluated left to right, then pydantic
validates the fields (`estimated_minutes` and `order` carry `ge=1`).
`pyOptIntGe1` is the `int | None`, `ge=1` field validation used for
`estimated_minutes`: an absent key or a JSON null yields `None`. -/
def pyOptIntGe1 : Option Json → Except PyErr (Option Int)
  | none => .ok none
  | some .null => .ok none
  | some v => do
    let i ← pyInt v
    if 1 ≤ i then pure (some i)
    else .error ⟨.validationError, "Input should be greater than or equal to 1"⟩

/-- The `order` field value: `st.get("order", idx + 1)` then the
required-`int`, `ge=1` validation (the defaulted 1-based position
always satisfies the bound). -/
def orderField (idx : Nat) : Option Json → Except PyErr Int
  | none => pure ((idx : Int) + 1)
  | some v => do
    let i ← pyInt v
    if 1 ≤ i then pure i
    else .error ⟨.validationError, "Input should be greater than or equal to 1"⟩

def mkSubtaskSuggestion (idx : Nat) (st : Json) : Except PyErr SubtaskSuggestion := do
  let titleJ ← jsonDictGet st "title"
  let descJ ← jsonDictOptGet st "description"
  let estJ ← jsonDictOptGet st "estimated_minutes"
  let orderJ ← jsonDictOptGet st "order"
  let title ← pyStr titleJ
  let description ← pyOptStr descJ
  let estMinutes ← pyOptIntGe1 estJ
  let order ← orderField idx orderJ
  .ok ⟨title, description, estMinutes, order⟩

/-- The indexed list comprehension `for idx, st in enumerate(...)`:
maps each entry with its position, propagating the first failure. -/
def mapIdxE {α : Type _} (f : Nat → Json → Except PyErr α) :
    Nat → List Json → Except PyErr (List α)
  | _, [] => .ok []
  | i, e :: es => do
    let a ← f i e
    let rest ← mapIdxE f (i + 1) es
    .ok (a :: rest)

/-- `sum(st.estimated_minutes or 0 for st in subtasks)`. -/
def sumMinutes (sts : List SubtaskSuggestion) : Int :=
  (sts.map (fun st => st.estimated_minutes.getD 0)).sum

/-- Python `total_time or None` on an optional int: `0` is falsy. -/
def pyOrNoneInt : Option Int → Option Int
  | none => none
  | some n => if n = 0 then none else some n

/-- The response-mapping stage of `breakdown_task` (openai_service.py
lines 134-153; anthropic_service.py lines 135-154 are identical),
running on the parsed JSON object: build the subtask list with 1-based
default ordering, derive `total_estimated_minutes`, and pass
`reasoning` through. -/
def breakdownMap (req : TaskBreakdownRequest) (data : Json) :
    Except PyErr TaskBreakdownResponse := do
  let subtasksJ ← jsonDictGet data "subtasks"
  let entries ← asEntries "subtasks" subtasksJ
  let subtasks ← mapIdxE mkSubtaskSuggestion 0 entries
  let reasoningJ ← jsonDictOptGet data "reasoning"
  let reasoning ← pyOptStr reasoningJ
  .ok ⟨req.task_title, subtasks,
    pyOrNoneInt (if subtasks.isEmpty then none else some (sumMinutes subtasks)),
    reasoning⟩

/-- One entry of the prioritization list (openai_service.py lines
195-204, anthropic_service.py lines 187-196): keyword arguments
evaluated left to right — `sug["task_title"]`, then
`PriorityLevel(sug["priority"])`, then the remaining lookups — followed
by pydantic validation. -/
def mkPrioritySuggestion (sug : Json) : Except PyErr PrioritySuggestion := do
  let titleJ ← jsonDictGet sug "task_title"
  let priorityJ ← jsonDictGet sug "priority"
  let priority ← priorityLevelOf priorityJ
  let reasoningJ ← jsonDictGet sug "reasoning"
  let urgencyJ ← jsonDictGet sug "urgency_score"
  let impactJ ← jsonDictGet sug "impact_score"
  let task_title ← pyStr titleJ
  let reasoning ← pyStr reasoningJ
  let urgency_score ← pyUnitFloat urgencyJ
  let impact_score ← pyUnitFloat impactJ
  .ok ⟨task_title, priority, reasoning, urgency_score, impact_score⟩

/-- The response-mapping stage of `prioritize_tasks` (openai_service.py
lines 193-209; anthropic_service.py lines 185-201 are identical). -/
def prioritizeMap (data : Json) : Except PyErr TaskPrioritizationResponse := do
  let sugsJ ← jsonDictGet data "suggestions"
  let entries ← asEntries "suggestions" sugsJ
  let suggestions ← mapE mkPrioritySuggestion entries
  let orderJ ← jsonDictGet data "recommended_order"
  let recommended_order ← pyStrList orderJ
  .ok ⟨suggestions, recommended_order⟩

/-- The response-mapping stage of `estimate_time` (openai_service.py
lines 247-261; anthropic_service.py lines 232-246 are identical): the
four `TimeEstimate` keyword lookups run left to right, the estimate is
validated, then `factors` and `assumptions` are looked up and
validated. -/
def estimateMap (taskTitle : String) (data : Json) :
    Except PyErr TimeEstimateResponse := do
  let oJ ← jsonDictGet data "optimistic_minutes"
  let rJ ← jsonDictGet data "realistic_minutes"
  let pJ ← jsonDictGet data "pessimistic_minutes"
  let cJ ← jsonDictGet data "confidence"
  let o ← pyInt oJ
  let or1 ←
    if 1 ≤ o then pure o
    else (.error ⟨.validationError, "Input should be greater than or equal to 1"⟩ :
      Except PyErr Int)
  let r ← pyInt rJ
  let rr1 ←
    if 1 ≤ r then pure r
    else (.error ⟨.validationError, "Input should be greater than or equal to 1"⟩ :
      Except PyErr Int)
  let p ← pyInt pJ
  let pr1 ←
    if 1 ≤ p then pure p
    else (.error ⟨.validationError, "Input should be greater than or equal to 1"⟩ :
      Except PyErr Int)
  let c ← pyUnitFloat cJ
  let fJ ← jsonDictGet data "factors"
  let factors ← pyStrList fJ
  let aJ ← jsonDictGet data "assumptions"
  let assumptions ← pyStrList aJ
  .ok ⟨taskTitle, ⟨or1, rr1, pr1, c⟩, factors, assumptions⟩

/-- The outcome of one network exchange with a completion backend:
an exception raised by the client library, a response whose content
slot is `None`, or a response with text content. The prompt fed to the
exchange is fixed per call, so attempts are indexed by attempt number
only. -/
inductive Exchange
  | failure (msg : String)
  | empty
  | content (text : List Char)

/-- Whether an exchange outcome yields content. -/
def isContent : Exchange → Bool
  | .content _ => true
  | _ => false

/-- One execution of the body of `OpenAIService._call_openai`
(openai_service.py lines 59-72; `_call_anthropic` lines 60-81 has the
same shape): a client exception re-raises, a `None` content raises
`ValueError("OpenAI returned empty response")`, and text content is
returned. -/
def callAttempt : Exchange → Except PyErr (List Char)
  | .failure msg => .error ⟨.apiError, msg⟩
  | .empty => .error ⟨.valueError, "OpenAI returned empty response"⟩
  | .content text => .ok text

/-- The tenacity retry loop with `stop=stop_after_attempt(n)`: run the
body for attempt index `i`; return on success; on failure, if no
retries remain raise `RetryError` wrapping the last exception,
otherwise retry the next attempt. `fuel` is the number of retries
remaining after the current attempt. The second component counts the
attempts executed. -/
def retryFrom (ex : Nat → Exchange) : Nat → Nat → Except PyErr (List Char) × Nat
  | 0, i =>
    match callAttempt (ex i) with
    | .ok text => (.ok text, i + 1)
    | .error e => (.error ⟨.retryError, e.payload⟩, i + 1)
  | fuel + 1, i =>
    match callAttempt (ex i) with
    | .ok text => (.ok text, i + 1)
    | .error _ => retryFrom ex fuel (i + 1)

/-- The `@retry(stop=stop_after_attempt(settings.AI_MAX_RETRIES),
wait=wait_exponential(...))` wrapper on `_call_openai` /
`_call_anthropic` (openai_service.py lines 43-46): `maxAttempts` total
attempts (tenacity always executes the first attempt, so a budget of 0
still performs one). Backoff delays affect timing only, not results,
and are not modelled. -/
def callWithRetry (ex : Nat → Exchange) (maxAttempts : Nat) :
    Except PyErr (List Char) × Nat :=
  retryFrom ex (maxAttempts - 1) 0

/-- `OpenAIService.breakdown_task` (openai_service.py lines 102-153)
after prompt construction: the exchange goes through the retry wrapper
once; the parse and mapping stages run outside the wrapper. The prompt
text itself feeds only the abstracted exchange and does not affect the
result. Returns the result together with the number of exchanges
performed. -/
def breakdownTask (maxAttempts : Nat) (req : TaskBreakdownRequest)
    (ex : Nat → Exchange) :
    Except PyErr TaskBreakdownResponse × Nat :=
  match callWithRetry ex maxAttempts with
  | (.error e, n) => (.error e, n)
  | (.ok text, n) =>
    match parseJsonResponse text with
    | .error e => (.error e, n)
    | .ok data => (breakdownMap req data, n)

/-- core/config.py `Settings`, restricted to the fields the provider
layer reads. The object is a module-level singleton created at import;
it is fixed for the life of the process and later environment writes do
not change it. -/
structure Settings where
  AI_PROVIDER : String
  OPENAI_API_KEY : String
  OPENAI_MODEL : String
  ANTHROPIC_API_KEY : String
  ANTHROPIC_MODEL : String
  OLLAMA_BASE_URL : String
  OLLAMA_MODEL : String
  AI_MAX_RETRIES : Nat
  deriving DecidableEq, Repr

/-- The field defaults from core/config.py. -/
def defaultSettings : Settings where
  AI_PROVIDER := "openai"
  OPENAI_API_KEY := ""
  OPENAI_MODEL := "gpt-4-turbo-preview"
  ANTHROPIC_API_KEY := ""
  ANTHROPIC_MODEL := "claude-3-5-sonnet-20241022"
  OLLAMA_BASE_URL := "http://localhost:11434"
  OLLAMA_MODEL := "llama3"
  AI_MAX_RETRIES := 3

/-- The process-wide environment slots written by
`factory.get_ai_provider` via `os.environ`. -/
structure Env where
  OPENAI_API_KEY : Option String
  ANTHROPIC_API_KEY : Option String
  deriving DecidableEq, Repr

/-- An adapter instance as returned by the factory, recording the
constructor arguments each service reads. `OpenAIService.__init__`
(openai_service.py lines 36-41) passes `settings.OPENAI_API_KEY` — a
`str`, never `None` — to the client, so the client's own environment
fallback never triggers; `AnthropicService.__init__` is analogous. -/
inductive Adapter
  | openaiService (clientApiKey : String) (model : String)
  | anthropicService (clientApiKey : String) (model : String)
  | ollamaService (baseUrl : String) (model : String)
  deriving DecidableEq, Repr

/-- `OpenAIService()` construction from the settings singleton. -/
def mkOpenAIService (s : Settings) : Adapter :=
  .openaiService s.OPENAI_API_KEY s.OPENAI_MODEL

/-- `AnthropicService()` construction from the settings singleton. -/
def mkAnthropicService (s : Settings) : Adapter :=
  .anthropicService s.ANTHROPIC_API_KEY s.ANTHROPIC_MODEL

/-- Modelled from the spec: app/services/ollama_service.py is not in
the source tree (only its importers are). Per section 4.4 the
self-hosted adapter takes no credential and is constructed from the
configured base URL and model. -/
def mkOllamaService (s : Settings) : Adapter :=
  .ollamaService s.OLLAMA_BASE_URL s.OLLAMA_MODEL

/-- Python `str.lower()` (character-wise, as used on provider names). -/
def toLowerS (s : String) : String := String.mk (s.data.map Char.toLower)

/-- Python `a or b` where `a` is an optional string: `None` and the
empty string are falsy. -/
def pyOrStr (a : Option String) (b : String) : String :=
  match a with
  | none => b
  | some s => if s = "" then b else s

/-- `factory.get_ai_provider` (factory.py lines 16-80): resolve the
provider name (request override or configured default), check key
presence, write the request-supplied key into `os.environ` (a
process-wide mutation that is never reverted), and construct the
service from the module-level settings singleton. Returns the adapter
together with the environment after the call. -/
def getAiProvider (s : Settings) (providerName : Option String)
    (apiKey : Option String) (env : Env) : Except PyErr (Adapter × Env) :=
  let provider := toLowerS (pyOrStr providerName s.AI_PROVIDER)
  if provider = "openai" then
    let key := pyOrStr apiKey s.OPENAI_API_KEY
    if key = "" then
      .error ⟨.valueError,
        "OpenAI API key not provided. Provide it in the request or configure OPENAI_API_KEY in server .env"⟩
    else
      let env1 :=
        match apiKey with
        | some k => if k = "" then env else { env with OPENAI_API_KEY := some k }
        | none => env
      .ok (mkOpenAIService s, env1)
  else if provider = "anthropic" then
    let key := pyOrStr apiKey s.ANTHROPIC_API_KEY
    if key = "" then
      .error ⟨.valueError,
        "Anthropic API key not provided. Provide it in the request or configure ANTHROPIC_API_KEY in server .env"⟩
    else
      let env1 :=
        match apiKey with
        | some k => if k = "" then env else { env with ANTHROPIC_API_KEY := some k }
        | none => env
      .ok (mkAnthropicService s, env1)
  else if provider = "ollama" then
    .ok (mkOllamaService s, env)
  else
    .error ⟨.valueError,
      "Invalid AI provider: " ++ provider ++ ". Must be one of: openai, anthropic, ollama"⟩

/-! ## Helper lemmas -/

theorem exceptBind_eq_ok {α β : Type _} {x : Except PyErr α}
    {f : α → Except PyErr β} {b : β} (h : x >>= f = .ok b) :
    ∃ a, x = .ok a ∧ f a = .ok b := by
  cases x with
  | error e => exact absurd h (by simp [Bind.bind, Except.bind])
  | ok a => exact ⟨a, rfl, h⟩

theorem exceptBind_ok {α β : Type _} (a : α) (f : α → Except PyErr β) :
    (Except.ok a >>= f) = f a := rfl

theorem exceptBind_error {α β : Type _} (e : PyErr) (f : α → Except PyErr β) :
    ((Except.error e : Except PyErr α) >>= f) = .error e := rfl

theorem exceptPure {α : Type _} (a : α) :
    (pure a : Except PyErr α) = .ok a := rfl

theorem parseJsonResponse_error_ty {r : List Char} {e : PyErr}
    (h : parseJsonResponse r = .error e) : e.ty = .valueError := by
  unfold parseJsonResponse extractJson at h
  cases hj : jsonLoads (trimL (stripFences r)) with
  | ok j => rw [hj] at h; cases h
  | error msg => rw [hj] at h; cases h; rfl

theorem priorityLevelOf_error_ty {j : Json} {e : PyErr}
    (h : priorityLevelOf j = .error e) : e.ty = .valueError := by
  unfold priorityLevelOf at h
  split at h <;> cases h <;> rfl

theorem callAttempt_not_content {x : Exchange} (h : isContent x = false) :
    ∃ e, callAttempt x = .error e := by
  cases x with
  | failure msg => exact ⟨_, rfl⟩
  | empty => exact ⟨_, rfl⟩
  | content text => simp [isContent] at h

theorem retryFrom_allFail (ex : Nat → Exchange) :
    ∀ fuel i, (∀ j, i ≤ j → j ≤ i + fuel → isContent (ex j) = false) →
      ∃ p, retryFrom ex fuel i = (.error ⟨.retryError, p⟩, i + fuel + 1) := by
  intro fuel
  induction fuel with
  | zero =>
    intro i h
    obtain ⟨e, he⟩ := callAttempt_not_content (h i le_rfl (by omega))
    exact ⟨e.payload, by simp [retryFrom, he]⟩
  | succ fuel ih =>
    intro i h
    obtain ⟨e, he⟩ := callAttempt_not_content (h i le_rfl (by omega))
    obtain ⟨p, hp⟩ := ih (i + 1) (fun j hj1 hj2 => h j (by omega) (by omega))
    refine ⟨p, ?_⟩
    rw [retryFrom, he, hp]
    simp [Prod.ext_iff]
    omega

theorem retryFrom_firstSuccess (ex : Nat → Exchange) (text : List Char) :
    ∀ k fuel i, (∀ j, i ≤ j → j < i + k → isContent (ex j) = false) →
      ex (i + k) = .content text → k ≤ fuel →
      retryFrom ex fuel i = (.ok text, i + k + 1) := by
  intro k
  induction k with
  | zero =>
    intro fuel i h hc hk
    have hi : ex i = .content text := by simpa using hc
    cases fuel <;> simp [retryFrom, hi, callAttempt]
  | succ k ih =>
    intro fuel i h hc hk
    cases fuel with
    | zero => omega
    | succ fuel =>
      obtain ⟨e, he⟩ := callAttempt_not_content (h i le_rfl (by omega))
      have hrec := ih fuel (i + 1) (fun j hj1 hj2 => h j (by omega) (by omega))
        (by rw [show i + 1 + k = i + (k + 1) by omega]; exact hc) (by omega)
      rw [retryFrom, he, hrec]
      simp [Prod.ext_iff]
      omega

theorem pyStr_ok {j : Json} {s : String} (h : pyStr j = .ok s) :
    j = .str s := by
  cases j <;> simp_all [pyStr]

theorem asEntries_ok {w : String} {j : Json} {es : List Json}
    (h : asEntries w j = .ok es) : j = .arr es := by
  cases j <;> simp_all [asEntries]

theorem pyOptIntGe1_ok_ge {oj : Option Json} {em : Option Int}
    (h : pyOptIntGe1 oj = .ok em) : ∀ m, em = some m → 1 ≤ m := by
  intro m hm
  subst hm
  match oj, h with
  | none, h => cases h
  | some .null, h => cases h
  | some (.num n), h =>
    obtain ⟨i, hi, h⟩ := exceptBind_eq_ok h
    split at h
    · injection h with h
      injection h with h
      omega
    · cases h
  | some (.bool b), h => cases exceptBind_eq_ok h with
    | intro i hi => cases hi.1
  | some (.str t), h => cases exceptBind_eq_ok h with
    | intro i hi => cases hi.1
  | some (.arr es), h => cases exceptBind_eq_ok h with
    | intro i hi => cases hi.1
  | some (.obj fs), h => cases exceptBind_eq_ok h with
    | intro i hi => cases hi.1

theorem orderField_none {idx : Nat} {o : Int}
    (h : orderField idx none = .ok o) : o = (idx : Int) + 1 := by
  injection h with h
  exact h.symm

theorem mkSubtaskSuggestion_ok {idx : Nat} {st : Json}
    {sub : SubtaskSuggestion} (h : mkSubtaskSuggestion idx st = .ok sub) :
    jsonDictGet st "title" = .ok (.str sub.title) ∧
    (jsonDictOptGet st "order" = .ok none → sub.order = (idx : Int) + 1) ∧
    (∀ m, sub.estimated_minutes = some m → 1 ≤ m) := by
  unfold mkSubtaskSuggestion at h
  obtain ⟨titleJ, h1, h⟩ := exceptBind_eq_ok h
  obtain ⟨descJ, h2, h⟩ := exceptBind_eq_ok h
  obtain ⟨estJ, h3, h⟩ := exceptBind_eq_ok h
  obtain ⟨orderJ, h4, h⟩ := exceptBind_eq_ok h
  obtain ⟨title, h5, h⟩ := exceptBind_eq_ok h
  obtain ⟨description, h6, h⟩ := exceptBind_eq_ok h
  obtain ⟨estM, h7, h⟩ := exceptBind_eq_ok h
  obtain ⟨ord, h8, h⟩ := exceptBind_eq_ok h
  injection h with h
  subst h
  refine ⟨?_, ?_, ?_⟩
  · rw [h1, pyStr_ok h5]
  · intro hord
    rw [h4] at hord
    injection hord with hord
    subst hord
    exact orderField_none h8
  · exact pyOptIntGe1_ok_ge h7

theorem mapIdxE_cons_ok {α : Type _} {f : Nat → Json → Except PyErr α}
    {i : Nat} {e : Json} {es : List Json} {out : List α}
    (h : mapIdxE f i (e :: es) = .ok out) :
    ∃ a rest, f i e = .ok a ∧ mapIdxE f (i + 1) es = .ok rest ∧
      out = a :: rest := by
  simp only [mapIdxE] at h
  obtain ⟨a, ha, h⟩ := exceptBind_eq_ok h
  obtain ⟨rest, hrest, h⟩ := exceptBind_eq_ok h
  injection h with h
  exact ⟨a, rest, ha, hrest, h.symm⟩

theorem mapIdxE_ok_length {α : Type _} {f : Nat → Json → Except PyErr α} :
    ∀ {es : List Json} {i : Nat} {out : List α},
      mapIdxE f i es = .ok out → out.length = es.length := by
  intro es
  induction es with
  | nil =>
    intro i out h
    injection h with h
    subst h
    rfl
  | cons e es ih =>
    intro i out h
    obtain ⟨a, rest, -, hrest, rfl⟩ := mapIdxE_cons_ok h
    simp [ih hrest]

theorem mapIdxE_ok_get {α : Type _} {f : Nat → Json → Except PyErr α} :
    ∀ {es : List Json} {i : Nat} {out : List α},
      mapIdxE f i es = .ok out →
      ∀ k (hk : k < es.length) (hk' : k < out.length),
        f (i + k) (es.get ⟨k, hk⟩) = .ok (out.get ⟨k, hk'⟩) := by
  intro es
  induction es with
  | nil => intro i out h k hk hk'; simp at hk
  | cons e es ih =>
    intro i out h k hk hk'
    obtain ⟨a, rest, ha, hrest, rfl⟩ := mapIdxE_cons_ok h
    cases k with
    | zero => simpa using ha
    | succ k =>
      have hk2 : k < es.length := by simpa using hk
      have hk2' : k < rest.length := by simpa using hk'
      have := ih hrest k hk2 hk2'
      rw [show i + (k + 1) = i + 1 + k by omega]
      simpa using this

theorem mapIdxE_ok_mem {α : Type _} {f : Nat → Json → Except PyErr α} :
    ∀ {es : List Json} {i : Nat} {out : List α},
      mapIdxE f i es = .ok out →
      ∀ a ∈ out, ∃ n e, e ∈ es ∧ f n e = .ok a := by
  intro es
  induction es with
  | nil =>
    intro i out h a ha
    injection h with h
    subst h
    cases ha
  | cons e es ih =>
    intro i out h a ha
    obtain ⟨a0, rest, ha0, hrest, rfl⟩ := mapIdxE_cons_ok h
    rcases List.mem_cons.mp ha with rfl | ha
    · exact ⟨i, e, by simp, ha0⟩
    · obtain ⟨n, e', he', hfe⟩ := ih hrest a ha
      exact ⟨n, e', by simp [he'], hfe⟩

theorem breakdownMap_ok_inv {req : TaskBreakdownRequest} {data : Json}
    {resp : TaskBreakdownResponse} (h : breakdownMap req data = .ok resp) :
    ∃ entries subtasks,
      jsonDictGet data "subtasks" = .ok (.arr entries) ∧
      mapIdxE mkSubtaskSuggestion 0 entries = .ok subtasks ∧
      resp.subtasks = subtasks ∧
      resp.total_estimated_minutes =
        pyOrNoneInt
          (if subtasks.isEmpty then none else some (sumMinutes subtasks)) := by
  unfold breakdownMap at h
  obtain ⟨subtasksJ, h1, h⟩ := exceptBind_eq_ok h
  obtain ⟨entries, h2, h⟩ := exceptBind_eq_ok h
  obtain ⟨subtasks, h3, h⟩ := exceptBind_eq_ok h
  obtain ⟨reasoningJ, h4, h⟩ := exceptBind_eq_ok h
  obtain ⟨reasoning, h5, h⟩ := exceptBind_eq_ok h
  injection h with h
  subst h
  exact ⟨entries, subtasks, by rw [h1, asEntries_ok h2], h3, rfl, rfl⟩

theorem sumMinutes_eq_zero {sts : List SubtaskSuggestion}
    (h : ∀ st ∈ sts, st.estimated_minutes = none) : sumMinutes sts = 0 := by
  unfold sumMinutes
  apply List.sum_eq_zero
  intro x hx
  obtain ⟨st, hst, rfl⟩ := List.mem_map.mp hx
  simp [h st hst]

theorem mapIdxE_orders :
    ∀ (es : List Json) (i : Nat) (out : List SubtaskSuggestion),
      (∀ st ∈ es, jsonDictOptGet st "order" = .ok none) →
      mapIdxE mkSubtaskSuggestion i es = .ok out →
      out.map (fun s => s.order) =
        (List.range es.length).map (fun k => ((i + k : Nat) : Int) + 1) := by
  intro es
  induction es with
  | nil =>
    intro i out h hm
    injection hm with hm
    subst hm
    rfl
  | cons e es ih =>
    intro i out h hm
    obtain ⟨a, rest, ha, hrest, rfl⟩ := mapIdxE_cons_ok hm
    have horda : a.order = (i : Int) + 1 :=
      (mkSubtaskSuggestion_ok ha).2.1 (h e (by simp))
    have ihr := ih (i + 1) rest (fun st hst => h st (by simp [hst])) hrest
    simp only [List.map_cons, horda, ihr, List.length_cons,
      List.range_succ_eq_map, List.map_map]
    congr 1
    apply List.map_congr_left
    intro k hk
    simp only [Function.comp]
    push_cast
    ring

/-! ## Claims -/

/-- C1 (code bug): the factory comment says it "temporarily" sets the
environment variable and that OpenAIService reads from the environment,
but the write to `os.environ["OPENAI_API_KEY"]` is never reverted
(process-wide credential state changes permanently), and the adapter is
constructed from `settings.OPENAI_API_KEY` — with a server-configured
key, the request-supplied credential is not the one the constructed
client uses at all. This closed run exhibits both divergences from the
claim on a concrete input. -/
theorem c1_credential_global_mutation :
    getAiProvider { defaultSettings with OPENAI_API_KEY := "sk-server" }
        (some "openai") (some "sk-client") ⟨none, none⟩ =
      .ok (.openaiService "sk-server" "gpt-4-turbo-preview",
        ⟨some "sk-client", none⟩) := by
  rfl

/-- C2 (counterexample): an UnknownProvider failure and a
MissingCredential failure are raised with the same exception class
(`ValueError`), as is a JSON-parse MalformedOutput failure, so the four
error kinds are not four distinguishable types and a caller cannot
branch on the kind alone. -/
theorem c2_counterexample :
    errTy (getAiProvider defaultSettings (some "no-such-backend") none
      ⟨none, none⟩) = some .valueError ∧
    errTy (getAiProvider defaultSettings (some "openai") none
      ⟨none, none⟩) = some .valueError ∧
    errTy (parseJsonResponse ("not json".toList)) = some .valueError := by
  refine ⟨rfl, rfl, rfl⟩

/-- C2 (amended): unknown-provider, missing-credential, JSON-parse and
enum failures all surface as `ValueError`; only missing-key failures
(`KeyError`) and retry exhaustion (tenacity `RetryError`) carry
distinct classes, so the error kinds cannot be told apart by exception
type alone. -/
theorem c2_error_types (s : Settings) (name : String) (apiKey : Option String)
    (env env' : Env) (r : List Char) (e : PyErr) (j : Json) (e' : PyErr)
    (hname0 : name ≠ "")
    (h1 : toLowerS name ≠ "openai") (h2 : toLowerS name ≠ "anthropic")
    (h3 : toLowerS name ≠ "ollama")
    (hkey : s.OPENAI_API_KEY = "")
    (hparse : parseJsonResponse r = .error e)
    (hpl : priorityLevelOf j = .error e') :
    errTy (getAiProvider s (some name) apiKey env) = some .valueError ∧
    errTy (getAiProvider s (some "openai") none env') = some .valueError ∧
    e.ty = .valueError ∧ e'.ty = .valueError := by
  refine ⟨?_, ?_, parseJsonResponse_error_ty hparse, priorityLevelOf_error_ty hpl⟩
  · simp only [getAiProvider, pyOrStr]
    rw [if_neg hname0]
    simp [h1, h2, h3, errTy]
  · have hop : toLowerS "openai" = "openai" := by decide
    simp [getAiProvider, pyOrStr, hop, hkey, errTy]

/-- C2 (witness for the amended theorem). -/
theorem c2_error_types_witness :
    errTy (getAiProvider defaultSettings (some "bogus") none
      ⟨none, none⟩) = some .valueError ∧
    errTy (getAiProvider defaultSettings (some "openai") none
      ⟨none, none⟩) = some .valueError ∧
    (⟨.valueError, "Invalid JSON response from AI: Expecting value"⟩ : PyErr).ty =
      .valueError ∧
    (⟨.valueError, "is not a valid PriorityLevel"⟩ : PyErr).ty = .valueError :=
  c2_error_types defaultSettings "bogus" none ⟨none, none⟩ ⟨none, none⟩
    ("x".toList) ⟨.valueError, "Invalid JSON response from AI: Expecting value"⟩
    (Json.str "urgent") ⟨.valueError, "is not a valid PriorityLevel"⟩
    (by decide) (by decide) (by decide) (by decide) rfl rfl rfl

/-- C3 (counterexample): an Estimate response missing `confidence`
fails with `KeyError("confidence")` — the payload is exactly the
missing key and mentions no operation identifier, so the failure does
not name the operation (and is not a distinct MalformedOutput type). -/
theorem c3_counterexample :
    estimateMap "Write weekly report"
        (Json.obj [("optimistic_minutes", Json.num ⟨60, 0⟩),
          ("realistic_minutes", Json.num ⟨90, 0⟩),
          ("pessimistic_minutes", Json.num ⟨120, 0⟩)]) =
      .error ⟨.keyError, "confidence"⟩ ∧
    mentionsL ("confidence".toList) ("estimate".toList) = false ∧
    mentionsL ("confidence".toList) ("Estimate".toList) = false ∧
    mentionsL ("confidence".toList) ("time".toList) = false := by
  exact ⟨rfl, by decide, by decide, by decide⟩

/-- C3 (amended): for every Estimate extraction whose parsed object has
the three minute keys present but `confidence` absent, the operation
fails with a missing-key error `KeyError("confidence")` naming the
missing key (but not the operation). -/
theorem c3_missing_confidence (t : String) (data : Json)
    (h1 : ∃ v, jsonDictGet data "optimistic_minutes" = .ok v)
    (h2 : ∃ v, jsonDictGet data "realistic_minutes" = .ok v)
    (h3 : ∃ v, jsonDictGet data "pessimistic_minutes" = .ok v)
    (h4 : jsonDictGet data "confidence" = .error ⟨.keyError, "confidence"⟩) :
    estimateMap t data = .error ⟨.keyError, "confidence"⟩ := by
  obtain ⟨v1, hv1⟩ := h1
  obtain ⟨v2, hv2⟩ := h2
  obtain ⟨v3, hv3⟩ := h3
  simp [estimateMap, hv1, hv2, hv3, h4, exceptBind_ok, exceptBind_error]

/-- C3 (witness for the amended theorem). -/
theorem c3_missing_confidence_witness :
    estimateMap "Prepare slides"
        (Json.obj [("optimistic_minutes", Json.num ⟨30, 0⟩),
          ("realistic_minutes", Json.num ⟨45, 0⟩),
          ("pessimistic_minutes", Json.num ⟨60, 0⟩),
          ("factors", Json.arr [Json.str "scope"])]) =
      .error ⟨.keyError, "confidence"⟩ :=
  c3_missing_confidence "Prepare slides" _ ⟨_, rfl⟩ ⟨_, rfl⟩ ⟨_, rfl⟩ rfl

/-- C4: the resilient call wrapper performs exactly `maxAttempts`
attempts (the configured default is 3) when every attempt fails —
an empty body counting as a failed attempt — and then raises the
provider-call failure `RetryError`; on the first successful attempt it
returns that content with no further attempts. -/
theorem c4_retry_budget (ex₁ ex₂ : Nat → Exchange) (maxA k : Nat)
    (text : List Char) :
    defaultSettings.AI_MAX_RETRIES = 3 ∧
    callAttempt .empty = .error ⟨.valueError, "OpenAI returned empty response"⟩ ∧
    (1 ≤ maxA → (∀ i, i < maxA → isContent (ex₁ i) = false) →
      (callWithRetry ex₁ maxA).2 = maxA ∧
      errTy (callWithRetry ex₁ maxA).1 = some .retryError) ∧
    (k < maxA → (∀ i, i < k → isContent (ex₂ i) = false) →
      ex₂ k = .content text →
      callWithRetry ex₂ maxA = (.ok text, k + 1)) := by
  refine ⟨rfl, rfl, ?_, ?_⟩
  · intro hA hall
    obtain ⟨p, hp⟩ := retryFrom_allFail ex₁ (maxA - 1) 0
      (fun j hj1 hj2 => hall j (by omega))
    unfold callWithRetry
    rw [hp]
    constructor
    · simp; omega
    · simp [errTy]
  · intro hk hfails hc
    unfold callWithRetry
    have := retryFrom_firstSuccess ex₂ text k (maxA - 1) 0
      (fun j hj1 hj2 => hfails j (by omega)) (by simpa using hc) (by omega)
    simpa using this

/-- C4 (witness): three empty-body attempts exhaust the default budget
of 3 and raise RetryError; a first-attempt success returns after one
exchange. -/
theorem c4_retry_budget_witness :
    (callWithRetry (fun _ => Exchange.empty) 3).2 = 3 ∧
    errTy (callWithRetry (fun _ => Exchange.empty) 3).1 = some .retryError ∧
    callWithRetry (fun _ => Exchange.content ("[]".toList)) 3 =
      (.ok ("[]".toList), 1) := by
  obtain ⟨-, -, h3, h4⟩ := c4_retry_budget (fun _ => Exchange.empty)
    (fun _ => Exchange.content ("[]".toList)) 3 0 ("[]".toList)
  obtain ⟨ha, hb⟩ := h3 (by omega) (fun i _ => rfl)
  exact ⟨ha, hb, h4 (by omega) (fun i hi => absurd hi (by omega)) rfl⟩

/-- C5: when the exchange succeeds on the first attempt but the
returned text fails JSON extraction, exactly one exchange is performed
and the extraction failure (a `ValueError`, never retried) propagates
to the caller unchanged. -/
theorem c5_malformed_not_retried (maxA : Nat) (req : TaskBreakdownRequest)
    (ex : Nat → Exchange) (text : List Char) (e : PyErr)
    (h1 : ex 0 = .content text) (h2 : parseJsonResponse text = .error e) :
    breakdownTask maxA req ex = (.error e, 1) ∧ e.ty = .valueError := by
  have hcall : callWithRetry ex maxA = (.ok text, 1) := by
    have := retryFrom_firstSuccess ex text 0 (maxA - 1) 0
      (fun j hj1 hj2 => absurd hj2 (by omega)) (by simpa using h1)
      (Nat.zero_le _)
    simpa [callWithRetry] using this
  exact ⟨by simp [breakdownTask, hcall, h2], parseJsonResponse_error_ty h2⟩

/-- C5 (witness): a first-attempt response that is not JSON yields the
parse ValueError after exactly one exchange. -/
theorem c5_malformed_not_retried_witness :
    breakdownTask 3 ⟨"Implement user authentication", none, none, 5⟩
        (fun _ => Exchange.content ("oops".toList)) =
      (.error ⟨.valueError, "Invalid JSON response from AI: Expecting value"⟩, 1) ∧
    (⟨.valueError, "Invalid JSON response from AI: Expecting value"⟩ : PyErr).ty =
      .valueError :=
  c5_malformed_not_retried 3 ⟨"Implement user authentication", none, none, 5⟩
    (fun _ => Exchange.content ("oops".toList)) ("oops".toList)
    ⟨.valueError, "Invalid JSON response from AI: Expecting value"⟩ rfl rfl

/-- C6: for every successful breakdown extraction,
`total_estimated_minutes` equals the sum of the present per-subtask
minutes (absent entries contribute 0) whenever at least one subtask
carries an estimate, and is absent — not zero — when no subtask
carries one or the list is empty. -/
theorem c6_total_minutes (req : TaskBreakdownRequest) (data : Json)
    (resp : TaskBreakdownResponse) (hok : breakdownMap req data = .ok resp) :
    ((∀ st ∈ resp.subtasks, st.estimated_minutes = none) →
      resp.total_estimated_minutes = none) ∧
    ((∃ st ∈ resp.subtasks, st.estimated_minutes.isSome) →
      resp.total_estimated_minutes = some (sumMinutes resp.subtasks)) := by
  obtain ⟨entries, subtasks, harr, hmap, hsub, htot⟩ := breakdownMap_ok_inv hok
  constructor
  · intro hall
    rw [hsub] at hall
    rw [htot]
    by_cases he : subtasks.isEmpty
    · simp [he, pyOrNoneInt]
    · simp [he, pyOrNoneInt, sumMinutes_eq_zero hall]
  · rintro ⟨st0, hst0, hsome⟩
    rw [hsub] at hst0
    rw [htot, hsub]
    have hne : subtasks.isEmpty = false := by
      cases subtasks
      · simp at hst0
      · rfl
    have hge : ∀ st ∈ subtasks, ∀ m, st.estimated_minutes = some m → 1 ≤ m := by
      intro st hst m hm
      obtain ⟨n, e, -, hfe⟩ := mapIdxE_ok_mem hmap st hst
      exact (mkSubtaskSuggestion_ok hfe).2.2 m hm
    obtain ⟨m0, hm0⟩ := Option.isSome_iff_exists.mp hsome
    have hterm : (1 : Int) ≤ st0.estimated_minutes.getD 0 := by
      rw [hm0]
      exact hge st0 hst0 m0 hm0
    have hnonneg : ∀ x ∈ subtasks.map (fun st => st.estimated_minutes.getD 0),
        (0 : Int) ≤ x := by
      intro x hx
      obtain ⟨st, hst, rfl⟩ := List.mem_map.mp hx
      cases hm : st.estimated_minutes with
      | none => simp [hm]
      | some m => simpa [hm] using le_of_lt (lt_of_lt_of_le one_pos (hge st hst m hm))
    have hmem : st0.estimated_minutes.getD 0 ∈
        subtasks.map (fun st => st.estimated_minutes.getD 0) :=
      List.mem_map_of_mem _ hst0
    have hle := List.single_le_sum hnonneg _ hmem
    have hpos : sumMinutes subtasks ≠ 0 := by
      unfold sumMinutes
      omega
    simp [hne, pyOrNoneInt, hpos]

/-- C6 (witness): two subtasks with 30 and 60 minute estimates yield
`total_estimated_minutes = 90`; a breakdown whose subtasks carry no
estimates yields an absent total. -/
theorem c6_total_minutes_witness :
    ((∀ st ∈ ([⟨"Create auth models", none, some 30, 1⟩,
        ⟨"Implement JWT tokens", none, some 60, 2⟩] :
        List SubtaskSuggestion), st.estimated_minutes = none) →
      (some 90 : Option Int) = none) ∧
    ((∃ st ∈ ([⟨"Create auth models", none, some 30, 1⟩,
        ⟨"Implement JWT tokens", none, some 60, 2⟩] :
        List SubtaskSuggestion), st.estimated_minutes.isSome) →
      (some 90 : Option Int) =
        some (sumMinutes [⟨"Create auth models", none, some 30, 1⟩,
          ⟨"Implement JWT tokens", none, some 60, 2⟩])) :=
  c6_total_minutes ⟨"Implement user authentication", none, none, 5⟩
    (Json.obj [("subtasks", Json.arr
      [Json.obj [("title", Json.str "Create auth models"),
        ("estimated_minutes", Json.num ⟨30, 0⟩),
        ("order", Json.num ⟨1, 0⟩)],
       Json.obj [("title", Json.str "Implement JWT tokens"),
        ("estimated_minutes", Json.num ⟨60, 0⟩),
        ("order", Json.num ⟨2, 0⟩)]]),
      ("reasoning", Json.str "two steps")])
    ⟨"Implement user authentication",
      [⟨"Create auth models", none, some 30, 1⟩,
       ⟨"Implement JWT tokens", none, some 60, 2⟩],
      some 90, some "two steps"⟩ rfl

/-- C9: when the backend omits the `order` field on every subtask
entry, a successful breakdown extraction assigns the orders
1, 2, ..., n in array position order. -/
theorem c9_default_order (req : TaskBreakdownRequest) (data : Json)
    (entries : List Json) (resp : TaskBreakdownResponse)
    (harr : jsonDictGet data "subtasks" = .ok (.arr entries))
    (hnone : ∀ st ∈ entries, jsonDictOptGet st "order" = .ok none)
    (hok : breakdownMap req data = .ok resp) :
    resp.subtasks.map (fun s => s.order) =
      (List.range entries.length).map (fun (k : Nat) => (k : Int) + 1) := by
  obtain ⟨entries', subtasks, harr', hmap, hsub, -⟩ := breakdownMap_ok_inv hok
  rw [harr] at harr'
  injection harr' with he
  injection he with he
  subst he
  rw [hsub]
  have := mapIdxE_orders entries 0 subtasks hnone hmap
  simpa using this

/-- C9 (witness): two entries without `order` receive orders 1 and 2. -/
theorem c9_default_order_witness :
    ([⟨"A", none, none, 1⟩, ⟨"B", none, none, 2⟩] :
        List SubtaskSuggestion).map (fun s => s.order) =
      (List.range ([Json.obj [("title", Json.str "A")],
        Json.obj [("title", Json.str "B")]] : List Json).length).map
        (fun (k : Nat) => (k : Int) + 1) :=
  c9_default_order ⟨"Plan sprint", none, none, 5⟩
    (Json.obj [("subtasks", Json.arr
      [Json.obj [("title", Json.str "A")],
       Json.obj [("title", Json.str "B")]])])
    [Json.obj [("title", Json.str "A")], Json.obj [("title", Json.str "B")]]
    ⟨"Plan sprint", [⟨"A", none, none, 1⟩, ⟨"B", none, none, 2⟩], none, none⟩
    rfl
    (by
      intro st hst
      simp only [List.mem_cons, List.not_mem_nil, or_false] at hst
      rcases hst with rfl | rfl <;> rfl)
    rfl

/-- C10: a successful breakdown extraction returns exactly one
`SubtaskSuggestion` per entry of the backend's `subtasks` array, in
array order (the k-th suggestion's title is the k-th entry's `title`),
with no dependence on the request's `max_subtasks` bound — the list is
never truncated or filtered. -/
theorem c10_no_truncation (req : TaskBreakdownRequest) (data : Json)
    (entries : List Json) (resp : TaskBreakdownResponse)
    (harr : jsonDictGet data "subtasks" = .ok (.arr entries))
    (hok : breakdownMap req data = .ok resp) :
    resp.subtasks.length = entries.length ∧
    ∀ k (hk : k < entries.length) (hk' : k < resp.subtasks.length),
      jsonDictGet (entries.get ⟨k, hk⟩) "title" =
        .ok (.str ((resp.subtasks.get ⟨k, hk'⟩).title)) := by
  obtain ⟨entries', subtasks, harr', hmap, hsub, -⟩ := breakdownMap_ok_inv hok
  rw [harr] at harr'
  injection harr' with he
  injection he with he
  subst he
  subst hsub
  constructor
  · exact mapIdxE_ok_length hmap
  · intro k hk hk'
    have hget := mapIdxE_ok_get hmap k hk hk'
    exact (mkSubtaskSuggestion_ok hget).1

/-- C10 (witness): a request with `max_subtasks = 1` and a backend list
of three entries still yields three subtasks, in order. -/
theorem c10_no_truncation_witness :
    ([⟨"A", none, none, 1⟩, ⟨"B", none, none, 2⟩, ⟨"C", none, none, 3⟩] :
        List SubtaskSuggestion).length =
      ([Json.obj [("title", Json.str "A")], Json.obj [("title", Json.str "B")],
        Json.obj [("title", Json.str "C")]] : List Json).length ∧
    jsonDictGet (Json.obj [("title", Json.str "A")]) "title" =
      .ok (.str "A") := by
  have h := c10_no_truncation ⟨"Plan sprint", none, none, 1⟩
    (Json.obj [("subtasks", Json.arr
      [Json.obj [("title", Json.str "A")], Json.obj [("title", Json.str "B")],
       Json.obj [("title", Json.str "C")]])])
    [Json.obj [("title", Json.str "A")], Json.obj [("title", Json.str "B")],
      Json.obj [("title", Json.str "C")]]
    ⟨"Plan sprint", [⟨"A", none, none, 1⟩, ⟨"B", none, none, 2⟩,
      ⟨"C", none, none, 3⟩], none, none⟩ rfl rfl
  exact ⟨h.1, h.2 0 (by decide) (by decide)⟩

theorem priorityLevelOf_ok_str {j : Json} {p : PriorityLevel}
    (h : priorityLevelOf j = .ok p) : ∃ s, j = .str s := by
  cases j <;> first
    | exact ⟨_, rfl⟩
    | simp [priorityLevelOf] at h

theorem mkPrioritySuggestion_ok {sug : Json} {ps : PrioritySuggestion}
    (h : mkPrioritySuggestion sug = .ok ps) :
    ∃ s, jsonDictGet sug "priority" = .ok (.str s) ∧
      priorityLevelOf (.str s) = .ok ps.priority := by
  unfold mkPrioritySuggestion at h
  obtain ⟨titleJ, h1, h⟩ := exceptBind_eq_ok h
  obtain ⟨priorityJ, h2, h⟩ := exceptBind_eq_ok h
  obtain ⟨priority, h3, h⟩ := exceptBind_eq_ok h
  obtain ⟨reasoningJ, h4, h⟩ := exceptBind_eq_ok h
  obtain ⟨urgencyJ, h5, h⟩ := exceptBind_eq_ok h
  obtain ⟨impactJ, h6, h⟩ := exceptBind_eq_ok h
  obtain ⟨task_title, h7, h⟩ := exceptBind_eq_ok h
  obtain ⟨reasoning, h8, h⟩ := exceptBind_eq_ok h
  obtain ⟨urgency, h9, h⟩ := exceptBind_eq_ok h
  obtain ⟨impact, h10, h⟩ := exceptBind_eq_ok h
  injection h with h
  subst h
  obtain ⟨sv, hsv⟩ := priorityLevelOf_ok_str h3
  subst hsv
  exact ⟨sv, h2, h3⟩

theorem mapE_cons_ok {α : Type _} {f : Json → Except PyErr α} {e : Json}
    {es : List Json} {out : List α} (h : mapE f (e :: es) = .ok out) :
    ∃ a rest, f e = .ok a ∧ mapE f es = .ok rest ∧ out = a :: rest := by
  simp only [mapE] at h
  obtain ⟨a, ha, h⟩ := exceptBind_eq_ok h
  obtain ⟨rest, hrest, h⟩ := exceptBind_eq_ok h
  injection h with h
  exact ⟨a, rest, ha, hrest, h.symm⟩

theorem mapE_ok_length {α : Type _} {f : Json → Except PyErr α} :
    ∀ {es : List Json} {out : List α},
      mapE f es = .ok out → out.length = es.length := by
  intro es
  induction es with
  | nil =>
    intro out h
    injection h with h
    subst h
    rfl
  | cons e es ih =>
    intro out h
    obtain ⟨a, rest, -, hrest, rfl⟩ := mapE_cons_ok h
    simp [ih hrest]

theorem mapE_ok_get {α : Type _} {f : Json → Except PyErr α} :
    ∀ {es : List Json} {out : List α}, mapE f es = .ok out →
      ∀ k (hk : k < es.length) (hk' : k < out.length),
        f (es.get ⟨k, hk⟩) = .ok (out.get ⟨k, hk'⟩) := by
  intro es
  induction es with
  | nil => intro out h k hk hk'; simp at hk
  | cons e es ih =>
    intro out h k hk hk'
    obtain ⟨a, rest, ha, hrest, rfl⟩ := mapE_cons_ok h
    cases k with
    | zero => simpa using ha
    | succ k =>
      have hk2 : k < es.length := by simpa using hk
      have hk2' : k < rest.length := by simpa using hk'
      simpa using ih hrest k hk2 hk2'

theorem mapE_ok_elem {α : Type _} {f : Json → Except PyErr α} :
    ∀ {es : List Json} {out : List α}, mapE f es = .ok out →
      ∀ e ∈ es, ∃ a, f e = .ok a := by
  intro es
  induction es with
  | nil => intro out h e he; cases he
  | cons e0 es ih =>
    intro out h e he
    obtain ⟨a, rest, ha, hrest, rfl⟩ := mapE_cons_ok h
    rcases List.mem_cons.mp he with rfl | he
    · exact ⟨a, ha⟩
    · exact ih hrest e he

theorem prioritizeMap_ok_inv {data : Json}
    {resp : TaskPrioritizationResponse} (h : prioritizeMap data = .ok resp) :
    ∃ entries sugs,
      jsonDictGet data "suggestions" = .ok (.arr entries) ∧
      mapE mkPrioritySuggestion entries = .ok sugs ∧
      resp.suggestions = sugs := by
  unfold prioritizeMap at h
  obtain ⟨sugsJ, h1, h⟩ := exceptBind_eq_ok h
  obtain ⟨entries, h2, h⟩ := exceptBind_eq_ok h
  obtain ⟨sugs, h3, h⟩ := exceptBind_eq_ok h
  obtain ⟨orderJ, h4, h⟩ := exceptBind_eq_ok h
  obtain ⟨ro, h5, h⟩ := exceptBind_eq_ok h
  injection h with h
  subst h
  exact ⟨entries, sugs, by rw [h1, asEntries_ok h2], h3, rfl⟩

/-- C8: every priority string of a successful Prioritization extraction
maps through the enum constructor to exactly one of the four levels
(first part, pointwise); a recognized entry with an unrecognized
priority string fails with `ValueError` at the enum conversion rather
than receiving a default (second part); and any entry whose conversion
fails makes the whole extraction fail (third part). -/
theorem c8_priority_enum
    (dataA : Json) (entriesA : List Json) (respA : TaskPrioritizationResponse)
    (sugB : Json) (sB : String) (eB : PyErr)
    (dataC : Json) (entriesC : List Json) (sugC : Json) (eC : PyErr) :
    (jsonDictGet dataA "suggestions" = .ok (.arr entriesA) →
      prioritizeMap dataA = .ok respA →
      ∀ k (hk : k < entriesA.length) (hk' : k < respA.suggestions.length),
        ∃ s, jsonDictGet (entriesA.get ⟨k, hk⟩) "priority" = .ok (.str s) ∧
          priorityLevelOf (.str s) =
            .ok ((respA.suggestions.get ⟨k, hk'⟩).priority)) ∧
    ((∃ v, jsonDictGet sugB "task_title" = .ok v) →
      jsonDictGet sugB "priority" = .ok (.str sB) →
      priorityLevelOf (.str sB) = .error eB →
      errTy (mkPrioritySuggestion sugB) = some .valueError) ∧
    (jsonDictGet dataC "suggestions" = .ok (.arr entriesC) →
      sugC ∈ entriesC → mkPrioritySuggestion sugC = .error eC →
      ∀ resp', prioritizeMap dataC ≠ .ok resp') := by
  refine ⟨?_, ?_, ?_⟩
  · intro harr hok k hk hk'
    obtain ⟨entries', sugs, harr', hmap, hsub⟩ := prioritizeMap_ok_inv hok
    rw [harr] at harr'
    injection harr' with he
    injection he with he
    subst he
    subst hsub
    exact mkPrioritySuggestion_ok (mapE_ok_get hmap k hk hk')
  · rintro ⟨v, hv⟩ hp hbad
    have herr : mkPrioritySuggestion sugB = .error eB := by
      unfold mkPrioritySuggestion
      rw [hv, exceptBind_ok, hp, exceptBind_ok, hbad, exceptBind_error]
    rw [herr]
    simp [errTy, priorityLevelOf_error_ty hbad]
  · intro harr hmem herr resp' hok
    obtain ⟨entries', sugs, harr', hmap, -⟩ := prioritizeMap_ok_inv hok
    rw [harr] at harr'
    injection harr' with he
    injection he with he
    subst he
    obtain ⟨a, ha⟩ := mapE_ok_elem hmap sugC hmem
    rw [herr] at ha
    cases ha

/-- C8 (witness): a valid suggestion maps "high" to the `high` level; a
suggestion with priority "urgent" fails with `ValueError`; and a
prioritization response containing it fails extraction. -/
theorem c8_priority_enum_witness :
    (∃ s, jsonDictGet (Json.obj [("task_title", Json.str "T"),
        ("priority", Json.str "high"), ("reasoning", Json.str "r"),
        ("urgency_score", Json.num ⟨8, 1⟩),
        ("impact_score", Json.num ⟨9, 1⟩)]) "priority" = .ok (.str s) ∧
      priorityLevelOf (.str s) = .ok PriorityLevel.high) ∧
    errTy (mkPrioritySuggestion (Json.obj [("task_title", Json.str "T"),
      ("priority", Json.str "urgent")])) = some .valueError ∧
    prioritizeMap (Json.obj [("suggestions", Json.arr
        [Json.obj [("task_title", Json.str "T"),
          ("priority", Json.str "urgent")]])]) ≠
      .ok ⟨[], []⟩ := by
  have h := c8_priority_enum
    (Json.obj [("suggestions", Json.arr
      [Json.obj [("task_title", Json.str "T"),
        ("priority", Json.str "high"), ("reasoning", Json.str "r"),
        ("urgency_score", Json.num ⟨8, 1⟩),
        ("impact_score", Json.num ⟨9, 1⟩)]]),
      ("recommended_order", Json.arr [Json.str "T"])])
    [Json.obj [("task_title", Json.str "T"),
      ("priority", Json.str "high"), ("reasoning", Json.str "r"),
      ("urgency_score", Json.num ⟨8, 1⟩), ("impact_score", Json.num ⟨9, 1⟩)]]
    ⟨[⟨"T", .high, "r", ⟨8, 1⟩, ⟨9, 1⟩⟩], ["T"]⟩
    (Json.obj [("task_title", Json.str "T"),
      ("priority", Json.str "urgent")])
    "urgent" ⟨.valueError, "is not a valid PriorityLevel"⟩
    (Json.obj [("suggestions", Json.arr
      [Json.obj [("task_title", Json.str "T"),
        ("priority", Json.str "urgent")]])])
    [Json.obj [("task_title", Json.str "T"),
      ("priority", Json.str "urgent")]]
    (Json.obj [("task_title", Json.str "T"),
      ("priority", Json.str "urgent")])
    ⟨.valueError, "is not a valid PriorityLevel"⟩
  exact ⟨h.1 rfl rfl 0 (by decide) (by decide),
    h.2.1 ⟨Json.str "T", rfl⟩ rfl rfl,
    h.2.2 rfl (by simp) rfl ⟨[], []⟩⟩

theorem dropTrailWS_idem (l : List Char) :
    dropTrailWS (dropTrailWS l) = dropTrailWS l := by
  simp [dropTrailWS, List.reverse_reverse, List.dropWhile_idempotent]

theorem dropLeadWS_dropTrailWS {l : List Char} (h : dropLeadWS l = l) :
    dropLeadWS (dropTrailWS l) = dropTrailWS l := by
  cases l with
  | nil => rfl
  | cons a tl =>
    have hpa : pyWS a = false := by
      by_contra hpa'
      have hpa2 : pyWS a = true := by simpa using hpa'
      rw [dropLeadWS, List.dropWhile_cons_of_pos hpa2] at h
      have hlen := congrArg List.length h
      have hle := (List.dropWhile_sublist (l := tl) pyWS).length_le
      simp at hlen
      omega
    rw [dropTrailWS, List.reverse_cons, List.dropWhile_append]
    split
    · simp [List.dropWhile_cons, hpa, dropLeadWS]
    · simp [List.reverse_append, dropLeadWS, List.dropWhile_cons, hpa]

theorem trimL_trimL (l : List Char) : trimL (trimL l) = trimL l := by
  unfold trimL
  rw [dropLeadWS_dropTrailWS (by simp [dropLeadWS, List.dropWhile_idempotent]),
    dropTrailWS_idem]

theorem trimL_cons_ws {c : Char} {l : List Char} (h : pyWS c = true) :
    trimL (c :: l) = trimL l := by
  simp [trimL, dropLeadWS, List.dropWhile_cons, h]

theorem dropTrailWS_append_ws {c : Char} {l : List Char} (h : pyWS c = true) :
    dropTrailWS (l ++ [c]) = dropTrailWS l := by
  simp [dropTrailWS, List.reverse_append, List.dropWhile_cons, h]

theorem trimL_append_ws {c : Char} {l : List Char} (h : pyWS c = true) :
    trimL (l ++ [c]) = trimL l := by
  unfold trimL dropLeadWS
  rw [List.dropWhile_append]
  split
  · rename_i hemp
    have hnil : List.dropWhile pyWS l = [] := by
      simpa [List.isEmpty_iff] using hemp
    simp [hnil, List.dropWhile_cons, h, dropTrailWS]
  · rw [dropTrailWS_append_ws h]

theorem trimL_eq_self {c d : Char} {l : List Char}
    (hc : pyWS c = false) (hd : pyWS d = false) :
    trimL (c :: l ++ [d]) = c :: l ++ [d] := by
  unfold trimL dropLeadWS dropTrailWS
  simp only [List.cons_append]
  rw [List.dropWhile_cons_of_neg (by simp [hc])]
  simp [List.reverse_cons, List.reverse_append, List.reverse_reverse,
    List.append_assoc,
    List.dropWhile_cons_of_neg (by simp [hd] : ¬ pyWS d = true)]

theorem leadMatch_append_self (p l : List Char) : leadMatch p (p ++ l) = true := by
  induction p with
  | nil => rfl
  | cons a p ih => simp [leadMatch, ih]

theorem leadMatch_of_append {p q l : List Char}
    (h : leadMatch (p ++ q) l = true) : leadMatch p l = true := by
  induction p generalizing l with
  | nil => rfl
  | cons a p ih =>
    cases l with
    | nil => simp [leadMatch] at h
    | cons c cs =>
      simp only [List.cons_append, leadMatch, Bool.and_eq_true] at h ⊢
      exact ⟨h.1, ih h.2⟩

/-- C7: the response extractor first trims whitespace, strips a leading
fence opener with or without a language tag, strips a trailing fence
closer when present, and parses the remainder; fence-free text is
parsed unchanged apart from the trim. -/
theorem c7_fence_normalization (r body : List Char)
    (h1 : leadMatch fence (trimL r) = false)
    (h2 : endMatch fence (trimL r) = false) :
    parseJsonResponse r = extractJson (trimL r) ∧
    parseJsonResponse (fenceJson ++ '\n' :: body ++ '\n' :: fence) =
      extractJson (trimL body) ∧
    parseJsonResponse (fence ++ '\n' :: body ++ '\n' :: fence) =
      extractJson (trimL body) := by
  have hnolead : leadMatch fence ('\n' :: body ++ '\n' :: fence) = false := rfl
  have hrev : ('\n' :: body ++ '\n' :: fence).reverse =
      fence ++ ('\n' :: (body.reverse ++ ['\n'])) := by
    simp [fence, List.reverse_cons, List.reverse_append, List.append_assoc]
  have hend : endMatch fence ('\n' :: body ++ '\n' :: fence) = true := by
    rw [endMatch, hrev, show fence.reverse = fence from rfl]
    exact leadMatch_append_self _ _
  have hdropR : dropRightL ('\n' :: body ++ '\n' :: fence) 3 =
      '\n' :: (body ++ ['\n']) := by
    rw [dropRightL, hrev,
      @List.drop_left' Char fence ('\n' :: (body.reverse ++ ['\n'])) 3 rfl]
    simp [List.reverse_cons, List.reverse_append, List.reverse_reverse]
  have htail : extractJson (trimL ('\n' :: (body ++ ['\n']))) =
      extractJson (trimL body) := by
    rw [trimL_cons_ws (by decide), trimL_append_ws (by decide)]
  refine ⟨?_, ?_, ?_⟩
  · have hj : leadMatch fenceJson (trimL r) = false := by
      by_contra hj'
      have hj2 : leadMatch fenceJson (trimL r) = true := by simpa using hj'
      have h3 : leadMatch fence (trimL r) = true :=
        leadMatch_of_append (p := fence) (q := ['j', 's', 'o', 'n'])
          (by simpa [fenceJson, fence] using hj2)
      rw [h3] at h1
      cases h1
    have hstrip : stripFences r = trimL r := by
      simp [stripFences, hj, h1, h2]
    rw [parseJsonResponse, hstrip, trimL_trimL]
  · have htrim : trimL (fenceJson ++ '\n' :: body ++ '\n' :: fence) =
        fenceJson ++ '\n' :: body ++ '\n' :: fence := by
      have := trimL_eq_self (c := '`') (d := '`')
        (l := ('`' :: '`' :: 'j' :: 's' :: 'o' :: 'n' :: '\n' :: []) ++ body ++
          ('\n' :: '`' :: '`' :: [])) (by decide) (by decide)
      simpa [fenceJson, fence, List.append_assoc] using this
    have hlead : leadMatch fenceJson
        (fenceJson ++ '\n' :: body ++ '\n' :: fence) = true :=
      leadMatch_append_self _ _
    have hdrop : (fenceJson ++ '\n' :: body ++ '\n' :: fence).drop 7 =
        '\n' :: body ++ '\n' :: fence :=
      @List.drop_left' Char fenceJson ('\n' :: body ++ '\n' :: fence) 7 rfl
    have hstrip : stripFences (fenceJson ++ '\n' :: body ++ '\n' :: fence) =
        '\n' :: (body ++ ['\n']) := by
      simp only [stripFences, htrim, hlead, if_true, hdrop, hnolead,
        Bool.false_eq_true, if_false, hend, hdropR]
    rw [parseJsonResponse, hstrip, htail]
  · have htrim : trimL (fence ++ '\n' :: body ++ '\n' :: fence) =
        fence ++ '\n' :: body ++ '\n' :: fence := by
      have := trimL_eq_self (c := '`') (d := '`')
        (l := ('`' :: '`' :: '\n' :: []) ++ body ++ ('\n' :: '`' :: '`' :: []))
        (by decide) (by decide)
      simpa [fence, List.append_assoc] using this
    have hjson : leadMatch fenceJson
        (fence ++ '\n' :: body ++ '\n' :: fence) = false := rfl
    have hlead : leadMatch fence (fence ++ '\n' :: body ++ '\n' :: fence) = true :=
      leadMatch_append_self _ _
    have hdrop : (fence ++ '\n' :: body ++ '\n' :: fence).drop 3 =
        '\n' :: body ++ '\n' :: fence :=
      @List.drop_left' Char fence ('\n' :: body ++ '\n' :: fence) 3 rfl
    have hstrip : stripFences (fence ++ '\n' :: body ++ '\n' :: fence) =
        '\n' :: (body ++ ['\n']) := by
      simp only [stripFences, htrim, hjson, Bool.false_eq_true, if_false,
        hlead, if_true, hdrop, hnolead, hend, hdropR]
    rw [parseJsonResponse, hstrip, htail]

/-- C7 (witness): a fence-free JSON object parses unchanged apart from
trimming, and the same object inside a ```json fence or a bare fence
parses to the same result. -/
theorem c7_fence_normalization_witness :
    parseJsonResponse ("\x7b\"a\": 1\x7d".toList) =
      extractJson (trimL ("\x7b\"a\": 1\x7d".toList)) ∧
    parseJsonResponse (fenceJson ++ '\n' :: ("\x7b\"a\": 1\x7d".toList) ++
        '\n' :: fence) =
      extractJson (trimL ("\x7b\"a\": 1\x7d".toList)) ∧
    parseJsonResponse (fence ++ '\n' :: ("\x7b\"a\": 1\x7d".toList) ++
        '\n' :: fence) =
      extractJson (trimL ("\x7b\"a\": 1\x7d".toList)) :=
  c7_fence_normalization ("\x7b\"a\": 1\x7d".toList) ("\x7b\"a\": 1\x7d".toList)
    (by decide) (by decide)

end Altair
